import Mathlib

/-!
Verification of the counseling chat application.

The development is a shallow embedding of the repository's three source
files:

* `src/server.ts` — an HTTP API over an embedded SQLite store
  (announcements and ratings tables) with socket broadcasts.
* `src/src/services/geminiService.ts` — the advice generator wrapping an
  external language-model call.
* `src/src/App.tsx` — the client: chat-turn state machine, keyboard
  handling, loading flag and elapsed-time ticker.

Machine integers are modelled as `Nat`/`Int`; JavaScript truthiness of the
request-body fields is modelled explicitly (`none` for a missing field,
the empty string and the integer zero are falsy); datetimes are `Nat`
instants supplied by the environment.
-/

namespace Counseling

/-- Announcement row of the `announcements` table (`server.ts` schema):
id INTEGER PRIMARY KEY AUTOINCREMENT, title TEXT NOT NULL,
content TEXT NOT NULL, created_at DATETIME DEFAULT CURRENT_TIMESTAMP. -/
structure Announcement where
  id : Nat
  title : String
  content : String
  created_at : Nat
deriving DecidableEq

/-- Rating row of the `ratings` table (`server.ts` schema):
id INTEGER PRIMARY KEY AUTOINCREMENT, message_id TEXT NOT NULL,
rating INTEGER NOT NULL, created_at DATETIME DEFAULT CURRENT_TIMESTAMP. -/
structure Rating where
  id : Nat
  message_id : String
  rating : Int
  created_at : Nat
deriving DecidableEq

/-- State of the embedded store. Rows are kept in insertion (rowid)
order; `nextAnnId` and `nextRatingId` model the AUTOINCREMENT counters,
which SQLite never decreases and never reuses after a delete. -/
structure DB where
  nextAnnId : Nat
  anns : List Announcement
  nextRatingId : Nat
  ratings : List Rating
deriving DecidableEq

/-- Freshly created store: both tables empty, AUTOINCREMENT counters at 1. -/
def initDB : DB := ⟨1, [], 1, []⟩

/-- Socket broadcasts emitted by the HTTP handlers
(`io.emit("new_announcement", ...)` and
`io.emit("delete_announcement", ...)` in `server.ts`). -/
inductive Event where
  | new_announcement (a : Announcement)
  | delete_announcement (id : Nat)
deriving DecidableEq

/-- Response bodies the handlers produce (`res.json(...)` payloads). -/
inductive Body where
  | errorMsg (msg : String)
  | announcement (a : Announcement)
  | announcementList (l : List Announcement)
  | ratingId (id : Nat)
  | success
deriving DecidableEq

/-- Result of one HTTP request: status code, JSON body, post-state of the
store, and the socket events emitted while handling the request, in
emission order. -/
structure Response where
  status : Nat
  body : Body
  db : DB
  events : List Event
deriving DecidableEq

/-- Truthiness of an optional string request field: JavaScript `!x` is
true when the field is absent (`undefined`) or the empty string. -/
def falsyStr : Option String → Bool
  | none => true
  | some s => s == ""

/-- Truthiness of an optional integer request field: JavaScript `!x` is
true when the field is absent or zero. -/
def falsyInt : Option Int → Bool
  | none => true
  | some n => n == 0

/-- Stable insertion of an announcement into a list already sorted by
`created_at` descending, keeping earlier rows first among equal
timestamps. Together with `listAnnouncements` this embeds the SQL
`SELECT * FROM announcements ORDER BY created_at DESC`. -/
def insertByCreatedDesc (a : Announcement) : List Announcement → List Announcement
  | [] => [a]
  | b :: bs =>
    if a.created_at ≤ b.created_at then b :: insertByCreatedDesc a bs
    else a :: b :: bs

/-- Sort by `created_at` descending (insertion sort). -/
def sortByCreatedDesc : List Announcement → List Announcement
  | [] => []
  | a :: as => insertByCreatedDesc a (sortByCreatedDesc as)

/-- GET `/api/announcements` (`server.ts`):
`db.prepare("SELECT * FROM announcements ORDER BY created_at DESC").all()`. -/
def listAnnouncements (db : DB) : List Announcement :=
  sortByCreatedDesc db.anns

/-- GET `/api/announcements` as a full HTTP response. -/
def getAnnouncements (db : DB) : Response :=
  { status := 200, body := .announcementList (listAnnouncements db),
    db := db, events := [] }

/-- POST `/api/announcements` (`server.ts`). Rejects with 400 when
`!title || !content`; otherwise inserts the row (AUTOINCREMENT id,
`created_at` = current instant `now`), emits one `new_announcement`
broadcast after the insert, and returns the created record. -/
def createAnnouncement (db : DB) (now : Nat)
    (title content : Option String) : Response :=
  if falsyStr title || falsyStr content then
    { status := 400, body := .errorMsg "Title and content are required",
      db := db, events := [] }
  else
    let a : Announcement :=
      { id := db.nextAnnId, title := title.getD "",
        content := content.getD "", created_at := now }
    let db2 : DB :=
      { db with nextAnnId := db.nextAnnId + 1, anns := db.anns ++ [a] }
    { status := 200, body := .announcement a, db := db2,
      events := [.new_announcement a] }

/-- DELETE `/api/announcements/:id` (`server.ts`). Runs
`DELETE FROM announcements WHERE id = ?`; when `info.changes === 0`
answers 404 and leaves the store unchanged, otherwise answers
`{success:true}` and emits one `delete_announcement` broadcast. -/
def deleteAnnouncement (db : DB) (id : Nat) : Response :=
  let remaining := db.anns.filter (fun a => a.id != id)
  let changes := db.anns.length - remaining.length
  if changes = 0 then
    { status := 404, body := .errorMsg "Announcement not found",
      db := db, events := [] }
  else
    { status := 200, body := .success,
      db := { db with anns := remaining },
      events := [.delete_announcement id] }

/-- POST `/api/ratings` (`server.ts`). Rejects with 400 when
`!message_id || !rating`; otherwise inserts the row and returns
`{ id: info.lastInsertRowid }`. No range validation on the rating. -/
def createRating (db : DB) (now : Nat)
    (message_id : Option String) (rating : Option Int) : Response :=
  if falsyStr message_id || falsyInt rating then
    { status := 400, body := .errorMsg "Message ID and rating are required",
      db := db, events := [] }
  else
    let r : Rating :=
      { id := db.nextRatingId, message_id := message_id.getD "",
        rating := rating.getD 0, created_at := now }
    let db2 : DB :=
      { db with nextRatingId := db.nextRatingId + 1, ratings := db.ratings ++ [r] }
    { status := 200, body := .ratingId db.nextRatingId, db := db2, events := [] }

/-- One mutating request against the announcements table, used to state
invariants over arbitrary request sequences. -/
inductive Op where
  | create (now : Nat) (title content : Option String)
  | delete (id : Nat)

/-- Post-state of the store after one request. -/
def applyOp (db : DB) : Op → DB
  | .create now t c => (createAnnouncement db now t c).db
  | .delete id => (deleteAnnouncement db id).db

/-- Post-state of the store after a sequence of requests. -/
def runOps (db : DB) (ops : List Op) : DB :=
  ops.foldl applyOp db

/-- Outcome of the upstream `ai.models.generateContent` call in
`geminiService.ts`: either a completion whose `text` field may be absent
or empty, or a thrown error. -/
inductive GenResult where
  | ok (text : Option String)
  | err (message : String)
deriving DecidableEq

/-- Fallback returned when the model answers but `response.text` is
falsy (`geminiService.ts`). -/
def emptyTextFallback : String :=
  "죄송합니다. 조언을 생성하는 중에 문제가 발생했습니다. 다시 시도해주세요."

/-- Fallback returned from the `catch` block when the upstream call
throws (`geminiService.ts`). -/
def apiErrorFallback : String :=
  "상담사와 연결이 원활하지 않습니다. 잠시 후 다시 시도해주세요."

/-- getCounselingAdvice from `geminiService.ts`. The upstream call is the
parameter `call`; the body is `try { ... return response.text || f1 }
catch { ... return f2 }`. The Lean function is total and returns a plain
`String`, embedding that the source never propagates an exception. -/
def getCounselingAdvice (call : String → GenResult) (worry : String) : String :=
  match call worry with
  | .ok none => emptyTextFallback
  | .ok (some t) => if t == "" then emptyTextFallback else t
  | .err _ => apiErrorFallback

/-- Role of a client-side chat message (`App.tsx`, interface Message). -/
inductive Role where
  | user
  | assistant
deriving DecidableEq

/-- Client-side chat message (`App.tsx`, interface Message): the id is
`Date.now().toString()` for the user turn and
`(Date.now() + 1).toString()` for the assistant turn. -/
structure ChatMessage where
  id : String
  role : Role
  content : String
  timestamp : Nat
deriving DecidableEq

/-- Client state relevant to a chat turn (`App.tsx` useState hooks), plus
`tickerRunning`, which records whether the elapsed-time interval started
by the `useEffect` on `isLoading` is live. -/
structure ChatState where
  worry : String
  messages : List ChatMessage
  isLoading : Bool
  elapsedTime : Nat
  tickerRunning : Bool
deriving DecidableEq

/-- JavaScript `String.prototype.trim`: strip whitespace from both ends.
(Lean's own `String.trim` is extensionally the same but does not reduce
in the kernel, so the list-level definition is used.) -/
def jsTrim (s : String) : String :=
  ⟨((s.data.dropWhile Char.isWhitespace).reverse.dropWhile Char.isWhitespace).reverse⟩

/-- User message appended optimistically at submission time `t`
(`App.tsx` handleSubmit). -/
def mkUserMessage (t : Nat) (content : String) : ChatMessage :=
  { id := toString t, role := .user, content := content, timestamp := t }

/-- Assistant message appended when the advice resolves at time `t`
(`App.tsx` handleSubmit). -/
def mkAssistantMessage (t : Nat) (content : String) : ChatMessage :=
  { id := toString (t + 1), role := .assistant, content := content, timestamp := t }

/-- Effect of the `useEffect` on `isLoading` in `App.tsx`: when loading
starts, elapsed time is reset to 0 and the 1 Hz interval starts; when
loading ends, the cleanup clears the interval. -/
def applyTickerEffect (s : ChatState) : ChatState :=
  if s.isLoading then { s with elapsedTime := 0, tickerRunning := true }
  else { s with tickerRunning := false }

/-- Guard at the top of handleSubmit (`App.tsx`):
`if (!worry.trim() || isLoading) return;`. -/
def submitGuard (s : ChatState) : Bool :=
  jsTrim s.worry == "" || s.isLoading

/-- First half of handleSubmit (`App.tsx`): when the guard passes, append
the user message, clear the input, set the loading flag (the ticker
effect then fires). The boolean records whether a turn was started. -/
def submitStart (s : ChatState) (t : Nat) : ChatState × Bool :=
  if submitGuard s then (s, false)
  else
    let s1 : ChatState :=
      { s with messages := s.messages ++ [mkUserMessage t s.worry],
               worry := "", isLoading := true }
    (applyTickerEffect s1, true)

/-- Second half of handleSubmit (`App.tsx`): once the advice resolves,
append the assistant message and clear the loading flag in the `finally`
block (the ticker effect cleanup then fires). -/
def submitFinish (s : ChatState) (advice : String) (t : Nat) : ChatState :=
  let s1 : ChatState :=
    { s with messages := s.messages ++ [mkAssistantMessage t advice],
             isLoading := false }
  applyTickerEffect s1

/-- One whole chat turn of handleSubmit (`App.tsx`): the advice request
is `advise` applied to the worry captured at submission; the returned
list holds the worries actually sent to the Advice Generator (empty when
the guard rejects the submission). -/
def handleSubmit (s : ChatState) (advise : String → String)
    (t₁ t₂ : Nat) : ChatState × List String :=
  if submitGuard s then (s, [])
  else (submitFinish (submitStart s t₁).1 (advise s.worry) t₂, [s.worry])

/-- Keyboard event fields read by the chat textarea handler (`App.tsx`). -/
structure KeyEvent where
  key : String
  shiftKey : Bool
  ctrlKey : Bool
  altKey : Bool
  metaKey : Bool
deriving DecidableEq

/-- Observable effect of a keydown on the chat textarea. -/
inductive KeyOutcome where
  | submit
  | insertNewline
  | defaultOther
deriving DecidableEq

/-- onKeyDown of the chat textarea (`App.tsx`):
`if (e.key === 'Enter' && !e.shiftKey) { e.preventDefault();
handleSubmit(e); }`. When the branch is not taken the browser default
applies, and the default for Enter in a textarea is a newline. -/
def chatKeyDown (e : KeyEvent) : KeyOutcome :=
  if e.key == "Enter" && !e.shiftKey then .submit
  else if e.key == "Enter" then .insertNewline
  else .defaultOther

/-- Any of the four keyboard modifier flags is held. -/
def modifierHeld (e : KeyEvent) : Bool :=
  e.shiftKey || e.ctrlKey || e.altKey || e.metaKey

/-- List of announcements sorted by `created_at` descending: every row
is at least as recent as every later row. -/
def sortedByCreatedDesc (l : List Announcement) : Prop :=
  l.Pairwise (fun a b => b.created_at ≤ a.created_at)

theorem mem_insertByCreatedDesc {x a : Announcement} {l : List Announcement} :
    x ∈ insertByCreatedDesc a l ↔ x = a ∨ x ∈ l := by
  induction l with
  | nil => simp [insertByCreatedDesc]
  | cons b bs ih =>
    simp only [insertByCreatedDesc]
    split
    · simp only [List.mem_cons, ih]
      tauto
    · simp only [List.mem_cons]

theorem sorted_insertByCreatedDesc {a : Announcement} {l : List Announcement}
    (h : sortedByCreatedDesc l) :
    sortedByCreatedDesc (insertByCreatedDesc a l) := by
  induction l with
  | nil =>
    simp [insertByCreatedDesc, sortedByCreatedDesc]
  | cons b bs ih =>
    simp only [insertByCreatedDesc]
    rw [sortedByCreatedDesc, List.pairwise_cons] at h
    split
    · rename_i hab
      rw [sortedByCreatedDesc, List.pairwise_cons]
      refine ⟨?_, ih h.2⟩
      intro x hx
      rcases mem_insertByCreatedDesc.mp hx with rfl | hx
      · exact hab
      · exact h.1 x hx
    · rename_i hab
      push_neg at hab
      rw [sortedByCreatedDesc, List.pairwise_cons]
      refine ⟨?_, ?_⟩
      · intro x hx
        rcases List.mem_cons.mp hx with rfl | hx
        · exact le_of_lt hab
        · exact le_trans (h.1 x hx) (le_of_lt hab)
      · exact List.pairwise_cons.mpr h

theorem mem_sortByCreatedDesc {x : Announcement} {l : List Announcement} :
    x ∈ sortByCreatedDesc l ↔ x ∈ l := by
  induction l with
  | nil => simp [sortByCreatedDesc]
  | cons b bs ih =>
    simp only [sortByCreatedDesc, mem_insertByCreatedDesc, List.mem_cons, ih]

theorem sorted_sortByCreatedDesc (l : List Announcement) :
    sortedByCreatedDesc (sortByCreatedDesc l) := by
  induction l with
  | nil => simp [sortByCreatedDesc, sortedByCreatedDesc]
  | cons b bs ih => exact sorted_insertByCreatedDesc ih

/-- In a list sorted by `created_at` descending, an element strictly more
recent than every other element is at the head. -/
theorem head_eq_of_strictly_newest {m : List Announcement} {a : Announcement}
    (hs : sortedByCreatedDesc m) (hm : a ∈ m)
    (hmax : ∀ b ∈ m, b ≠ a → b.created_at < a.created_at) :
    m.head? = some a := by
  cases m with
  | nil => cases hm
  | cons c rest =>
    by_cases hca : c = a
    · rw [hca]
      rfl
    · exfalso
      have hal : a ∈ rest := by
        rcases List.mem_cons.mp hm with h | h
        · exact absurd h.symm hca
        · exact h
      rw [sortedByCreatedDesc, List.pairwise_cons] at hs
      have h1 : a.created_at ≤ c.created_at := hs.1 a hal
      have h2 : c.created_at < a.created_at :=
        hmax c (List.mem_cons_self c rest) hca
      exact absurd h1 (not_le.mpr h2)

/-- Store invariant: announcement ids strictly increase in insertion
order (hence are unique), and every stored id is below the AUTOINCREMENT
counter. -/
def dbInv (db : DB) : Prop :=
  db.anns.Pairwise (fun a b => a.id < b.id) ∧ ∀ a ∈ db.anns, a.id < db.nextAnnId

theorem dbInv_initDB : dbInv initDB := by
  constructor
  · exact List.Pairwise.nil
  · intro a ha
    cases ha

theorem dbInv_createAnnouncement {db : DB} (now : Nat)
    (title content : Option String) (h : dbInv db) :
    dbInv (createAnnouncement db now title content).db := by
  unfold createAnnouncement
  split
  · exact h
  · refine ⟨?_, ?_⟩
    · rw [List.pairwise_append]
      refine ⟨h.1, List.pairwise_singleton _ _, ?_⟩
      intro x hx y hy
      rw [List.mem_singleton] at hy
      subst hy
      exact h.2 x hx
    · intro a ha
      rcases List.mem_append.mp ha with hx | hx
      · exact Nat.lt_succ_of_lt (h.2 a hx)
      · rw [List.mem_singleton] at hx
        subst hx
        exact Nat.lt_succ_self _

theorem dbInv_deleteAnnouncement {db : DB} (id : Nat) (h : dbInv db) :
    dbInv (deleteAnnouncement db id).db := by
  simp only [deleteAnnouncement]
  split
  · exact h
  · refine ⟨h.1.sublist (List.filter_sublist db.anns), ?_⟩
    intro a ha
    exact h.2 a ((List.filter_sublist db.anns).mem ha)

theorem dbInv_applyOp {db : DB} (op : Op) (h : dbInv db) :
    dbInv (applyOp db op) := by
  cases op with
  | create now t c => exact dbInv_createAnnouncement now t c h
  | delete id => exact dbInv_deleteAnnouncement id h

theorem dbInv_runOps (ops : List Op) {db : DB} (h : dbInv db) :
    dbInv (runOps db ops) := by
  induction ops generalizing db with
  | nil => exact h
  | cons op ops ih => exact ih (dbInv_applyOp op h)

/-- C2: for every input worry string, getCounselingAdvice never throws —
the embedding is a total function into `String` — and whenever the
upstream model call fails with any error, it returns exactly the fixed
Korean fallback string instead of propagating the exception. -/
theorem C2_adviceFallbackOnError (call : String → GenResult)
    (worry : String) (m : String) (h : call worry = .err m) :
    getCounselingAdvice call worry = apiErrorFallback := by
  unfold getCounselingAdvice
  rw [h]

theorem C2_adviceFallbackOnError_witness :
    getCounselingAdvice (fun _ => .err "network down") "고민이 있어요" =
      apiErrorFallback :=
  C2_adviceFallbackOnError (fun _ => .err "network down") "고민이 있어요"
    "network down" rfl

/-- C8 as stated is false: the handler only checks `e.shiftKey`, so Enter
with the Ctrl modifier held (and Shift not held) submits the turn rather
than inserting a newline. -/
theorem C8_counterexample :
    ¬ (∀ e : KeyEvent, e.key = "Enter" →
        ((modifierHeld e = false → chatKeyDown e = .submit) ∧
         (modifierHeld e = true → chatKeyDown e = .insertNewline))) := by
  intro h
  have h2 := (h ⟨"Enter", false, true, false, false⟩ rfl).2 (by decide)
  exact absurd h2 (by decide)

/-- C8 amended: in the chat input, pressing Enter with Shift not held
submits the chat turn (regardless of the other modifiers), while
pressing Enter with Shift held inserts a newline into the input. -/
theorem C8_enterSubmitShiftNewline (e : KeyEvent) (hk : e.key = "Enter") :
    (e.shiftKey = false → chatKeyDown e = .submit) ∧
    (e.shiftKey = true → chatKeyDown e = .insertNewline) := by
  constructor
  · intro hs
    simp [chatKeyDown, hk, hs]
  · intro hs
    simp [chatKeyDown, hk, hs]

theorem C8_enterSubmitShiftNewline_witness :
    chatKeyDown ⟨"Enter", false, false, false, false⟩ = .submit ∧
    chatKeyDown ⟨"Enter", true, true, false, false⟩ = .insertNewline :=
  ⟨(C8_enterSubmitShiftNewline ⟨"Enter", false, false, false, false⟩ rfl).1 rfl,
   (C8_enterSubmitShiftNewline ⟨"Enter", true, true, false, false⟩ rfl).2 rfl⟩

/-- C10: when the worry input is empty or whitespace-only, or a request
is already in flight (loading flag true), handleSubmit changes no client
state — no message appended, loading flag and input text unchanged — and
no advice request is issued. -/
theorem C10_submitGuardNoChange (s : ChatState) (advise : String → String)
    (t₁ t₂ : Nat) (h : jsTrim s.worry = "" ∨ s.isLoading = true) :
    handleSubmit s advise t₁ t₂ = (s, []) := by
  have hg : submitGuard s = true := by
    unfold submitGuard
    rcases h with h | h
    · rw [h]
      simp
    · rw [h]
      simp
  simp [handleSubmit, hg]

theorem C10_submitGuardNoChange_witness :
    handleSubmit ⟨"   ", [], false, 0, false⟩ (fun w => w) 5 9 =
      (⟨"   ", [], false, 0, false⟩, []) :=
  C10_submitGuardNoChange ⟨"   ", [], false, 0, false⟩ (fun w => w) 5 9
    (Or.inl (by decide))

/-- C9: for every non-blank submitted worry with no request in flight,
one chat turn appends exactly two messages in order — the user message
first, then the assistant message whose content is the Advice
Generator's result on the submitted worry — the loading flag is true
right after submission and false again when the turn completes, and the
elapsed-time ticker is started at submission and stopped at completion;
exactly one advice request is issued, carrying the submitted worry. -/
theorem C9_chatTurnLifecycle (s : ChatState) (advise : String → String)
    (t₁ t₂ : Nat) (hw : jsTrim s.worry ≠ "") (hl : s.isLoading = false) :
    (submitStart s t₁).1.isLoading = true ∧
    (submitStart s t₁).1.tickerRunning = true ∧
    (handleSubmit s advise t₁ t₂).1.messages =
      s.messages ++
        [mkUserMessage t₁ s.worry, mkAssistantMessage t₂ (advise s.worry)] ∧
    (handleSubmit s advise t₁ t₂).1.isLoading = false ∧
    (handleSubmit s advise t₁ t₂).1.tickerRunning = false ∧
    (handleSubmit s advise t₁ t₂).2 = [s.worry] := by
  have hg : submitGuard s = false := by
    unfold submitGuard
    rw [hl, beq_eq_false_iff_ne.mpr hw]
    rfl
  refine ⟨?_, ?_, ?_, ?_, ?_, ?_⟩ <;>
    simp [handleSubmit, submitStart, submitFinish, applyTickerEffect, hg]

theorem C9_chatTurnLifecycle_witness :
    (handleSubmit ⟨"고민이 있어요", [], false, 0, false⟩ (fun _ => "## 위로") 5 9).1.messages =
      [mkUserMessage 5 "고민이 있어요", mkAssistantMessage 9 "## 위로"] ∧
    (handleSubmit ⟨"고민이 있어요", [], false, 0, false⟩ (fun _ => "## 위로") 5 9).1.isLoading = false ∧
    (handleSubmit ⟨"고민이 있어요", [], false, 0, false⟩ (fun _ => "## 위로") 5 9).1.tickerRunning = false := by
  have h := C9_chatTurnLifecycle ⟨"고민이 있어요", [], false, 0, false⟩
    (fun _ => "## 위로") 5 9 (by decide) rfl
  exact ⟨h.2.2.1, h.2.2.2.1, h.2.2.2.2.1⟩

/-- C4: createAnnouncement fails with a 4xx status (here 400) and an
error body whenever title or content is empty or missing, and inserts no
row in that case (the whole store is unchanged); on success it assigns
the id from the AUTOINCREMENT counter and the current instant as
created_at, appends the row, and returns the created record. -/
theorem C4_createAnnouncementValidation (db : DB) (now : Nat)
    (title content : Option String) :
    ((falsyStr title || falsyStr content) = true →
      (createAnnouncement db now title content).status = 400 ∧
      (createAnnouncement db now title content).body =
        .errorMsg "Title and content are required" ∧
      (createAnnouncement db now title content).db = db) ∧
    (∀ t c, title = some t → content = some c → t ≠ "" → c ≠ "" →
      (createAnnouncement db now title content).status = 200 ∧
      (createAnnouncement db now title content).body =
        .announcement ⟨db.nextAnnId, t, c, now⟩ ∧
      (createAnnouncement db now title content).db.anns =
        db.anns ++ [⟨db.nextAnnId, t, c, now⟩] ∧
      (createAnnouncement db now title content).db.nextAnnId =
        db.nextAnnId + 1) := by
  constructor
  · intro h
    simp [createAnnouncement, h]
  · intro t c ht hc ht0 hc0
    subst ht
    subst hc
    have hg : (falsyStr (some t) || falsyStr (some c)) = false := by
      simp [falsyStr, beq_eq_false_iff_ne.mpr ht0, beq_eq_false_iff_ne.mpr hc0]
    simp [createAnnouncement, hg, falsyStr, beq_eq_false_iff_ne.mpr ht0,
      beq_eq_false_iff_ne.mpr hc0]

theorem C4_createAnnouncementValidation_witness :
    (createAnnouncement initDB 7 (some "") (some "c")).status = 400 ∧
    (createAnnouncement initDB 7 (some "") (some "c")).db = initDB ∧
    (createAnnouncement initDB 7 (some "공지1") (some "내용1")).status = 200 ∧
    (createAnnouncement initDB 7 (some "공지1") (some "내용1")).db.anns =
      [⟨1, "공지1", "내용1", 7⟩] := by
  have h1 := (C4_createAnnouncementValidation initDB 7 (some "") (some "c")).1
    (by decide)
  have h2 := (C4_createAnnouncementValidation initDB 7 (some "공지1")
    (some "내용1")).2 "공지1" "내용1" rfl rfl (by decide) (by decide)
  exact ⟨h1.1, h1.2.2, h2.1, h2.2.2.1⟩

/-- C5: createRating fails with 400 and creates no row whenever
message_id or rating is missing or falsy; for every truthy rating value,
including integers outside 1–5, it succeeds and returns the id of a
newly inserted row, with no range validation applied. -/
theorem C5_createRatingValidation (db : DB) (now : Nat)
    (mid : Option String) (rv : Option Int) :
    ((falsyStr mid || falsyInt rv) = true →
      (createRating db now mid rv).status = 400 ∧
      (createRating db now mid rv).db = db) ∧
    (∀ m r, mid = some m → rv = some r → m ≠ "" → r ≠ 0 →
      (createRating db now mid rv).status = 200 ∧
      (createRating db now mid rv).body = .ratingId db.nextRatingId ∧
      (createRating db now mid rv).db.ratings =
        db.ratings ++ [⟨db.nextRatingId, m, r, now⟩] ∧
      (createRating db now mid rv).db.nextRatingId = db.nextRatingId + 1) := by
  constructor
  · intro h
    simp [createRating, h]
  · intro m r hm hr hm0 hr0
    subst hm
    subst hr
    have hg : (falsyStr (some m) || falsyInt (some r)) = false := by
      simp [falsyStr, falsyInt, beq_eq_false_iff_ne.mpr hm0,
        beq_eq_false_iff_ne.mpr hr0]
    simp [createRating, hg]

theorem C5_createRatingValidation_witness :
    (createRating initDB 3 (some "abc") none).status = 400 ∧
    (createRating initDB 3 (some "abc") none).db = initDB ∧
    (createRating initDB 3 (some "abc") (some 99)).status = 200 ∧
    (createRating initDB 3 (some "abc") (some 99)).body = .ratingId 1 ∧
    (createRating initDB 3 (some "abc") (some 99)).db.ratings =
      [⟨1, "abc", 99, 3⟩] := by
  have h1 := (C5_createRatingValidation initDB 3 (some "abc") none).1 (by decide)
  have h2 := (C5_createRatingValidation initDB 3 (some "abc") (some 99)).2
    "abc" 99 rfl rfl (by decide) (by decide)
  exact ⟨h1.1, h1.2, h2.1, h2.2.1, h2.2.2.1⟩

/-- C3: for every id, deleteAnnouncement(id) followed by
listAnnouncements yields a list not containing id; and for every id
matching no stored row, deleteAnnouncement(id) returns 404 and leaves
the store and the announcement list unchanged. -/
theorem C3_deleteRemovesId (db : DB) (id : Nat) :
    (∀ a ∈ listAnnouncements (deleteAnnouncement db id).db, a.id ≠ id) ∧
    ((∀ a ∈ db.anns, a.id ≠ id) →
      (deleteAnnouncement db id).status = 404 ∧
      (deleteAnnouncement db id).db = db ∧
      listAnnouncements (deleteAnnouncement db id).db = listAnnouncements db) := by
  have hsub : List.Sublist (db.anns.filter (fun x => x.id != id)) db.anns :=
    List.filter_sublist db.anns
  by_cases hc : db.anns.length - (db.anns.filter (fun x => x.id != id)).length = 0
  · have hlen : (db.anns.filter (fun x => x.id != id)).length = db.anns.length := by
      have := hsub.length_le
      omega
    have heq : db.anns.filter (fun x => x.id != id) = db.anns :=
      hsub.eq_of_length hlen
    have hall : ∀ a ∈ db.anns, a.id ≠ id := by
      intro a ha
      have := List.filter_eq_self.mp heq a ha
      simpa [bne_iff_ne] using this
    have hdel : deleteAnnouncement db id =
        { status := 404, body := .errorMsg "Announcement not found",
          db := db, events := [] } := by
      simp only [deleteAnnouncement]
      rw [if_pos hc]
    constructor
    · intro a ha
      rw [hdel] at ha
      simp only [listAnnouncements, mem_sortByCreatedDesc] at ha
      exact hall a ha
    · intro _
      rw [hdel]
      exact ⟨rfl, rfl, rfl⟩
  · have hdel : deleteAnnouncement db id =
        { status := 200, body := .success,
          db := { db with anns := db.anns.filter (fun x => x.id != id) },
          events := [.delete_announcement id] } := by
      simp only [deleteAnnouncement]
      rw [if_neg hc]
    constructor
    · intro a ha
      rw [hdel] at ha
      simp only [listAnnouncements, mem_sortByCreatedDesc] at ha
      have := List.of_mem_filter ha
      simpa [bne_iff_ne] using this
    · intro hall
      exfalso
      have heq : db.anns.filter (fun x => x.id != id) = db.anns := by
        rw [List.filter_eq_self]
        intro a ha
        simpa [bne_iff_ne] using hall a ha
      rw [heq] at hc
      omega

theorem C3_deleteRemovesId_witness :
    (deleteAnnouncement initDB 999).status = 404 ∧
    (deleteAnnouncement initDB 999).db = initDB := by
  have h := (C3_deleteRemovesId initDB 999).2 (by intro a ha; cases ha)
  exact ⟨h.1, h.2.1⟩

/-- C6: every successful createAnnouncement emits exactly one
new_announcement broadcast whose payload equals the created record and
is in the committed store; every successful deleteAnnouncement emits
exactly one delete_announcement broadcast carrying the deleted id;
failed validation or not-found requests emit no broadcast. -/
theorem C6_broadcastPerMutation (db : DB) (now : Nat)
    (title content : Option String) (id : Nat) :
    ((createAnnouncement db now title content).status = 200 →
      ∃ a, (createAnnouncement db now title content).body = .announcement a ∧
        (createAnnouncement db now title content).events =
          [.new_announcement a] ∧
        a ∈ (createAnnouncement db now title content).db.anns) ∧
    ((createAnnouncement db now title content).status ≠ 200 →
      (createAnnouncement db now title content).events = []) ∧
    ((deleteAnnouncement db id).status = 200 →
      (deleteAnnouncement db id).events = [.delete_announcement id]) ∧
    ((deleteAnnouncement db id).status ≠ 200 →
      (deleteAnnouncement db id).events = []) := by
  refine ⟨?_, ?_, ?_, ?_⟩
  · intro h
    by_cases hg : (falsyStr title || falsyStr content) = true
    · simp [createAnnouncement, hg] at h
    · simp only [Bool.not_eq_true] at hg
      refine ⟨⟨db.nextAnnId, title.getD "", content.getD "", now⟩, ?_, ?_, ?_⟩ <;>
        simp [createAnnouncement, hg]
  · intro h
    by_cases hg : (falsyStr title || falsyStr content) = true
    · simp [createAnnouncement, hg]
    · exfalso
      apply h
      simp only [Bool.not_eq_true] at hg
      simp [createAnnouncement, hg]
  · intro h
    by_cases hc : db.anns.length - (db.anns.filter (fun x => x.id != id)).length = 0
    · simp [deleteAnnouncement, hc] at h
    · simp [deleteAnnouncement, hc]
  · intro h
    by_cases hc : db.anns.length - (db.anns.filter (fun x => x.id != id)).length = 0
    · simp [deleteAnnouncement, hc]
    · exfalso
      apply h
      simp [deleteAnnouncement, hc]

theorem C6_broadcastPerMutation_witness :
    (createAnnouncement initDB 4 (some "t") (some "c")).events =
      [.new_announcement ⟨1, "t", "c", 4⟩] ∧
    (createAnnouncement initDB 4 (some "") (some "c")).events = [] ∧
    (deleteAnnouncement (createAnnouncement initDB 4 (some "t") (some "c")).db 1).events =
      [.delete_announcement 1] ∧
    (deleteAnnouncement initDB 999).events = [] := by
  refine ⟨?_, ?_, ?_, ?_⟩
  · have h := (C6_broadcastPerMutation initDB 4 (some "t") (some "c") 1).1
      (by decide)
    rcases h with ⟨a, hb, he, _⟩
    have ha : a = ⟨1, "t", "c", 4⟩ := by
      have : (createAnnouncement initDB 4 (some "t") (some "c")).body =
          .announcement ⟨1, "t", "c", 4⟩ := by decide
      rw [this] at hb
      cases hb
      rfl
    rw [ha] at he
    exact he
  · exact (C6_broadcastPerMutation initDB 4 (some "") (some "c") 1).2.1 (by decide)
  · exact (C6_broadcastPerMutation
      (createAnnouncement initDB 4 (some "t") (some "c")).db 4 none none 1).2.2.1
      (by decide)
  · exact (C6_broadcastPerMutation initDB 4 none none 999).2.2.2 (by decide)

/-- C1: for every non-empty title and non-empty content, and a creation
instant later than every stored row's created_at (wall clock advancing),
createAnnouncement followed by listAnnouncements returns a sequence
sorted by created_at descending whose head is the newly created record;
and listAnnouncements returns the empty sequence on any store with no
announcements. -/
theorem C1_createThenListHead (db : DB) (now : Nat) (title content : String)
    (ht : title ≠ "") (hc : content ≠ "")
    (hfresh : ∀ b ∈ db.anns, b.created_at < now) :
    (createAnnouncement db now (some title) (some content)).status = 200 ∧
    (listAnnouncements
        (createAnnouncement db now (some title) (some content)).db).head? =
      some ⟨db.nextAnnId, title, content, now⟩ ∧
    sortedByCreatedDesc
      (listAnnouncements
        (createAnnouncement db now (some title) (some content)).db) ∧
    (∀ d : DB, d.anns = [] → listAnnouncements d = []) := by
  have hg : (falsyStr (some title) || falsyStr (some content)) = false := by
    simp [falsyStr, beq_eq_false_iff_ne.mpr ht, beq_eq_false_iff_ne.mpr hc]
  have hanns : (createAnnouncement db now (some title) (some content)).db.anns =
      db.anns ++ [⟨db.nextAnnId, title, content, now⟩] := by
    simp [createAnnouncement, hg]
  refine ⟨?_, ?_, ?_, ?_⟩
  · simp [createAnnouncement, hg]
  · rw [listAnnouncements, hanns]
    apply head_eq_of_strictly_newest (sorted_sortByCreatedDesc _)
    · rw [mem_sortByCreatedDesc]
      exact List.mem_append_right _ (List.mem_singleton.mpr rfl)
    · intro b hb hne
      rw [mem_sortByCreatedDesc] at hb
      rcases List.mem_append.mp hb with hbl | hbr
      · exact hfresh b hbl
      · exact absurd (List.mem_singleton.mp hbr) hne
  · rw [listAnnouncements]
    exact sorted_sortByCreatedDesc _
  · intro d hd
    rw [listAnnouncements, hd]
    rfl

theorem C1_createThenListHead_witness :
    (createAnnouncement initDB 7 (some "공지1") (some "내용1")).status = 200 ∧
    (listAnnouncements
        (createAnnouncement initDB 7 (some "공지1") (some "내용1")).db).head? =
      some ⟨1, "공지1", "내용1", 7⟩ ∧
    listAnnouncements initDB = [] := by
  have h := C1_createThenListHead initDB 7 "공지1" "내용1"
    (by decide) (by decide) (by intro b hb; cases hb)
  exact ⟨h.1, h.2.1, h.2.2.2 initDB rfl⟩

/-- C7: after every sequence of createAnnouncement and
deleteAnnouncement operations starting from the empty store,
announcement ids strictly increase in insertion order across creates
(hence are unique), and listAnnouncements is ordered by created_at
descending. -/
theorem C7_idInvariantsAndListOrder (ops : List Op) :
    (runOps initDB ops).anns.Pairwise (fun a b => a.id < b.id) ∧
    ((runOps initDB ops).anns.map Announcement.id).Nodup ∧
    sortedByCreatedDesc (listAnnouncements (runOps initDB ops)) := by
  have h := dbInv_runOps ops dbInv_initDB
  refine ⟨h.1, ?_, sorted_sortByCreatedDesc _⟩
  rw [List.Nodup, List.pairwise_map]
  exact h.1.imp Nat.ne_of_lt

end Counseling
